import Mathlib

/-!
# Verification of the ex-machina multi-agent coordination core

Shallow embedding of the core of the `ex-machina` repository:
the per-agent FIFO task queue (`src/agent.ts`), the bounded tool-calling
loop, the task-lifecycle protocol envelope (`src/protocol.ts`), the
resilience layer (`src/resilience.ts`: `withRetry`, `CircuitBreaker`),
the orchestrator coordination primitives (`src/tools/orchestratorTools.ts`:
`assignTasks`, `facilitateDebate`), and the deterministic peer-thread
addressing scheme (`src/networkBridge.ts`: `buildPeerThreadId`).

JavaScript runtime values that the code inspects dynamically (payloads of
thread messages) are modelled by the inductive type `JsValue`; machine
time is modelled by `Nat` timestamps passed explicitly; asynchronous
operations are modelled by explicit outcome sequences.
-/

namespace ExMachina

/-- A JavaScript (JSON-like) runtime value, as inspected dynamically by the
payload-scanning code. `jnum` carries an `Int`; the payloads the protocol
exchanges use only strings, objects and arrays. -/
inductive JsValue where
  | jstr : String → JsValue
  | jnum : Int → JsValue
  | jbool : Bool → JsValue
  | jnull : JsValue
  | jarr : List JsValue → JsValue
  | jobj : List (String × JsValue) → JsValue
deriving Repr

/-- Property lookup `v[k]`: only objects have (own, string-keyed) properties
in our model; `none` models JavaScript `undefined`. -/
def getField (v : JsValue) (k : String) : Option JsValue :=
  match v with
  | .jobj fields => (fields.find? (fun p => p.1 = k)).map (fun p => p.2)
  | _ => none

/-- `typeof v === "object"` — true for objects, arrays and `null`. -/
def jsTypeofIsObject (v : JsValue) : Bool :=
  match v with
  | .jobj _ => true
  | .jarr _ => true
  | .jnull => true
  | _ => false

/-- `v === null`. -/
def jsIsNull (v : JsValue) : Bool :=
  match v with
  | .jnull => true
  | _ => false

/-- JavaScript falsiness of a value (`!v`). -/
def jsFalsy (v : JsValue) : Bool :=
  match v with
  | .jstr s => s = ""
  | .jnum n => n = 0
  | .jbool b => !b
  | .jnull => true
  | _ => false

/-- `array.join(sep)`. -/
def jsJoin (sep : String) : List String → String
  | [] => ""
  | [x] => x
  | x :: rest => x ++ sep ++ jsJoin sep rest

mutual
/-- JavaScript string coercion as performed by template-literal
interpolation (`${v}`), for the value shapes of our model. -/
def jsDisplay (v : JsValue) : String :=
  match v with
  | .jstr s => s
  | .jnum n => toString n
  | .jbool b => toString b
  | .jnull => "null"
  | .jobj _ => "[object Object]"
  | .jarr xs => jsJoin "," (jsDisplayList xs)

/-- Array element display: `null` elements render empty inside arrays. -/
def jsDisplayList (xs : List JsValue) : List String :=
  match xs with
  | [] => []
  | .jnull :: rest => "" :: jsDisplayList rest
  | v :: rest => jsDisplay v :: jsDisplayList rest
end

/-- `${v.text}` where `v` is a found envelope: missing field interpolates
as `"undefined"`. -/
def textField (v : JsValue) : String :=
  match getField v "text" with
  | some w => jsDisplay w
  | none => "undefined"

-- ## Protocol module (`src/protocol.ts`)

/-- `TaskStatus` — the closed union of envelope type tags in the source:
`"assign" | "progress" | "blocked" | "done" | "review" | "chat"`. -/
inductive TaskStatus where
  | assign | progress | blocked | done | review | chat
deriving Repr, DecidableEq

/-- The string literal of a `TaskStatus` alternative. -/
def taskStatusStr : TaskStatus → String
  | .assign => "assign"
  | .progress => "progress"
  | .blocked => "blocked"
  | .done => "done"
  | .review => "review"
  | .chat => "chat"

/-- All alternatives of the `TaskStatus` union of the source, in source order. -/
def taskStatusStrings : List String :=
  ["assign", "progress", "blocked", "done", "review", "chat"]

/-- The `ProtocolMessage` interface: `type`, `text`, optional `assignee`
and optional `metadata`. -/
structure ProtocolMessage where
  type : TaskStatus
  text : String
  assignee : Option String := none
  metadata : Option (List (String × JsValue)) := none
deriving Repr

/-- The JSON value a `ProtocolMessage` is sent as (fields absent in the
record are absent in the serialized object, as `JSON.stringify` drops
`undefined` properties). -/
def ProtocolMessage.toJs (p : ProtocolMessage) : JsValue :=
  .jobj ([("type", .jstr (taskStatusStr p.type)), ("text", .jstr p.text)]
    ++ (match p.assignee with
        | some a => [("assignee", JsValue.jstr a)]
        | none => [])
    ++ (match p.metadata with
        | some m => [("metadata", JsValue.jobj m)]
        | none => []))

/-- `typeof x === "string"` for a property value (`none` = `undefined`). -/
def jsTypeofIsString (o : Option JsValue) : Bool :=
  match o with
  | some (.jstr _) => true
  | _ => false

/-- `isProtocolMessage` — the type guard: a non-null `object` whose `type`
and `text` properties are both strings. -/
def isProtocolMessage (payload : JsValue) : Bool :=
  if !(jsTypeofIsObject payload) || jsIsNull payload then false
  else jsTypeofIsString (getField payload "type")
    && jsTypeofIsString (getField payload "text")

/-- `createChat(text)`. -/
def createChat (text : String) : ProtocolMessage :=
  { type := .chat, text := text }

/-- `createAssign(assignee, instructions)`. -/
def createAssign (assignee instructions : String) : ProtocolMessage :=
  { type := .assign, assignee := some assignee, text := instructions }

/-- `createDone(resultText, metadata?)`. -/
def createDone (resultText : String)
    (metadata : Option (List (String × JsValue)) := none) : ProtocolMessage :=
  { type := .done, text := resultText, metadata := metadata }

/-- `createBlocked(reason, errorLog?)`. -/
def createBlocked (reason : String) (errorLog : Option String := none) :
    ProtocolMessage :=
  { type := .blocked, text := reason,
    metadata := errorLog.map (fun e => [("error", JsValue.jstr e)]) }

-- ## Peer-thread addressing (`src/networkBridge.ts`)

/-- `[agentA, agentB].sort()` — the default comparator on a two-element
array of strings orders the pair lexicographically. -/
def sortPair (a b : String) : List String :=
  if a ≤ b then [a, b] else [b, a]

/-- `NetworkBridge.buildPeerThreadId(mainThreadId, agentA, agentB, round)`:
`` `${mainThreadId}::${sorted}::r${round}` `` where `sorted` is
`[agentA, agentB].sort().join("_")`. -/
def buildPeerThreadId (mainThreadId agentA agentB : String)
    (round : Nat := 1) : String :=
  let sorted := jsJoin "_" (sortPair agentA agentB)
  mainThreadId ++ "::" ++ sorted ++ "::r" ++ toString round

-- ## Agent lane queue (`src/agent.ts`: `enqueue` / `drainQueue`)

/-- State of the lane queue of one agent.  JavaScript is single-threaded and
cooperative, so the observable interleaving points are the `await` inside
the loop of `drainQueue`.  `queue` is `this.queue` (pending tasks, by id);
`processing` is `this.processing`; `drains` holds one entry per live
`drainQueue` instance, carrying the task that instance is currently
awaiting inside `handleIncomingMessage` (the in-flight tasks);
`processed` logs the tasks whose processing pass has completed, in
completion order. -/
structure AgentState where
  queue : List Nat
  processing : Bool
  drains : List Nat
  processed : List Nat
deriving Repr, DecidableEq

/-- The idle initial state: empty queue, not processing. -/
def initAgentState : AgentState :=
  { queue := [], processing := false, drains := [], processed := [] }

/-- `enqueue(message)`: push onto the queue; if not already processing,
start `drainQueue`, which runs synchronously up to its first `await`:
it sets `processing = true`, shifts the queue head and begins handling
it (so that task becomes in-flight). -/
def enqueueStep (s : AgentState) (t : Nat) : AgentState :=
  let q := s.queue ++ [t]
  if s.processing then
    { s with queue := q }
  else
    match q with
    | [] => { s with queue := q, processing := true }
    | h :: rest =>
      { queue := rest, processing := true, drains := s.drains ++ [h],
        processed := s.processed }

/-- The `await handleIncomingMessage(...)` of the oldest live `drainQueue`
instance resumes: the pass of its task completes, and the loop continues —
shift the next task and begin handling it, or observe the empty queue and
set `processing = false`, ending that instance. -/
def completeStep (s : AgentState) : AgentState :=
  match s.drains with
  | [] => s
  | t :: otherDrains =>
    match s.queue with
    | [] =>
      { queue := [], processing := false, drains := otherDrains,
        processed := s.processed ++ [t] }
    | h :: rest =>
      { queue := rest, processing := s.processing,
        drains := otherDrains ++ [h], processed := s.processed ++ [t] }

/-- The states reachable from idle under enqueue and drain-resume steps. -/
inductive ReachableAgent : AgentState → Prop where
  | init : ReachableAgent initAgentState
  | enq {s : AgentState} (t : Nat) :
      ReachableAgent s → ReachableAgent (enqueueStep s t)
  | complete {s : AgentState} :
      ReachableAgent s → ReachableAgent (completeStep s)

/-- Enqueue a list of messages in order. -/
def enqueueAll (s : AgentState) (ts : List Nat) : AgentState :=
  ts.foldl enqueueStep s

/-- The lane invariant tying `processing`, the live drain instances and
the queue together. -/
def laneInvariant (s : AgentState) : Prop :=
  (s.processing = false → s.drains = [] ∧ s.queue = []) ∧
  (s.processing = true → s.drains.length = 1)

-- ## Circuit breaker (`src/resilience.ts`: `CircuitBreaker`)

/-- The three circuit states. Source strings: `"closed"`, `"open"`,
`"half-open"` (`opened` here names the source value `"open"`, which is a
reserved word in Lean). -/
inductive CircuitState where
  | closed | opened | halfOpen
deriving Repr, DecidableEq

/-- `CircuitBreaker` instance state and configuration
(`state`, `failureCount`, `lastFailureTime`; `failureThreshold`,
`cooldownMs`).  Time is in milliseconds. -/
structure Breaker where
  state : CircuitState := .closed
  failureCount : Nat := 0
  lastFailureTime : Nat := 0
  failureThreshold : Nat := 5
  cooldownMs : Nat := 30000
deriving Repr, DecidableEq

/-- What a single `call` did: short-circuited without invoking the wrapped
operation, or invoked it once and saw it succeed / fail. -/
inductive CallOutcome where
  | fastRejected | invokedOk | invokedErr
deriving Repr, DecidableEq

/-- `CircuitBreaker.call(fn)`.  `tStart` models the `Date.now()` read when
checking the cooldown; `tEnd` the `Date.now()` read when recording a
failure; `fnSucceeds` whether the awaited operation resolves or rejects.
Returns the updated breaker and what happened.  (JavaScript computes
`elapsed` as a possibly-negative number; with truncated `Nat`
subtraction the comparison `elapsed < cooldownMs` decides identically.) -/
def Breaker.call (b : Breaker) (tStart tEnd : Nat) (fnSucceeds : Bool) :
    Breaker × CallOutcome :=
  if b.state = .opened ∧ tStart - b.lastFailureTime < b.cooldownMs then
    (b, .fastRejected)
  else
    let b1 := if b.state = .opened then { b with state := .halfOpen } else b
    if fnSucceeds then
      ({ b1 with state := .closed, failureCount := 0 }, .invokedOk)
    else
      let b2 := { b1 with failureCount := b1.failureCount + 1,
                          lastFailureTime := tEnd }
      if b2.failureCount ≥ b2.failureThreshold ∨ b1.state = .halfOpen then
        ({ b2 with state := .opened }, .invokedErr)
      else
        (b2, .invokedErr)

-- ## Retry with exponential backoff (`src/resilience.ts`: `withRetry`)

/-- Result of a full `withRetry` run: the value returned or the error
thrown, how many times the operation was invoked, and the sequence of
back-off sleeps performed (in ms), in order. -/
structure RetryOutcome (E T : Type) where
  result : Except E T
  invocations : Nat
  sleeps : List Nat
deriving Repr

/-- `retryIf && !retryIf(err)` — true when a retry predicate is supplied
and classifies the error as not retryable. -/
def retryRejects {E : Type} (retryIf : Option (E → Bool)) (e : E) : Bool :=
  match retryIf with
  | some p => !(p e)
  | none => false

/-- The `for (let attempt = 0; attempt <= maxRetries; attempt++)` loop of
`withRetry`, from attempt index `attempt` with `fuel = maxRetries -
attempt` further attempts allowed after this one.  `fn i` is the outcome
of the `i`-th invocation of the operation; `jitter i` models the
`Math.random() * 500` draw before the sleep following attempt `i`. -/
def retryFrom {E T : Type} (fn : Nat → Except E T)
    (retryIf : Option (E → Bool)) (baseDelayMs maxDelayMs : Nat)
    (jitter : Nat → Nat) : Nat → Nat → RetryOutcome E T
  | attempt, fuel =>
    match fn attempt with
    | .ok v => ⟨.ok v, 1, []⟩
    | .error e =>
      if retryRejects retryIf e then
        ⟨.error e, 1, []⟩
      else
        match fuel with
        | 0 => ⟨.error e, 1, []⟩
        | fuel' + 1 =>
          let delay := min (baseDelayMs * 2 ^ attempt + jitter attempt)
                           maxDelayMs
          let rest := retryFrom fn retryIf baseDelayMs maxDelayMs jitter
                        (attempt + 1) fuel'
          ⟨rest.result, rest.invocations + 1, delay :: rest.sleeps⟩

/-- `withRetry(fn, opts)` with the source defaults
(`maxRetries = 3`, `baseDelayMs = 1000`, `maxDelayMs = 15000`,
`retryIf` absent). -/
def withRetry {E T : Type} (fn : Nat → Except E T)
    (maxRetries : Nat := 3) (baseDelayMs : Nat := 1000)
    (maxDelayMs : Nat := 15000) (retryIf : Option (E → Bool) := none)
    (jitter : Nat → Nat := fun _ => 0) : RetryOutcome E T :=
  retryFrom fn retryIf baseDelayMs maxDelayMs jitter 0 maxRetries

-- ## Bounded tool-calling loop (`src/agent.ts`: `handleIncomingMessage`)

/-- One entry of the conversation sent to the LLM. -/
structure ChatMessage where
  role : String
  content : String
deriving Repr, DecidableEq

/-- What a `chatCompletion` response amounts to after the agent checks it
for the tool-call marker substring and runs `JSON.parse`: a tool-call
request with name and arguments, or plain text. -/
inductive LlmReply where
  | toolCall (name args : String)
  | text (s : String)
deriving Repr, DecidableEq

/-- `const MAX_TOOL_ROUNDS = 10`. -/
def MAX_TOOL_ROUNDS : Nat := 10

/-- The fallback response when the round cap is exceeded. -/
def toolLimitResponse : String :=
  "I hit my tool execution limit. Here is what I have so far."

/-- Result of the `while (!finalResponse)` loop: the final text, how many
times the LLM was invoked, and the conversation accumulated. -/
structure ToolLoopResult where
  finalResponse : String
  llmCalls : Nat
  messages : List ChatMessage
deriving Repr, DecidableEq

/-- The `while (!finalResponse)` loop from `handleIncomingMessage`,
entered with counter value `round` (source starts at 0 and increments at
the top of each iteration).  `llm` gives the LLM reply as a function of
the conversation so far; `exec` is `toolRegistry.executeTool`.  An empty
text reply leaves `finalResponse` falsy, so the loop continues, as in the
source. -/
def toolLoopAux (llm : List ChatMessage → LlmReply)
    (exec : String → String → String)
    (msgs : List ChatMessage) (round calls : Nat) : ToolLoopResult :=
  if _h : MAX_TOOL_ROUNDS < round + 1 then
    ⟨toolLimitResponse, calls, msgs⟩
  else
    match llm msgs with
    | .toolCall n a =>
      let result := exec n a
      toolLoopAux llm exec
        (msgs ++
          [⟨"assistant", "(I called tool " ++ n ++ " with " ++ a ++ ")"⟩,
           ⟨"user", "Tool Result: " ++ result
              ++ "\nBased on this result, you must output a direct text response to continue."⟩])
        (round + 1) (calls + 1)
    | .text s =>
      if s = "" then toolLoopAux llm exec msgs (round + 1) (calls + 1)
      else ⟨s, calls + 1, msgs⟩
termination_by MAX_TOOL_ROUNDS + 1 - round
decreasing_by all_goals omega

/-- The per-task tool loop as entered by `handleIncomingMessage`:
`round = 0`, no LLM calls yet. -/
def handleToolLoop (llm : List ChatMessage → LlmReply)
    (exec : String → String → String)
    (msgs : List ChatMessage) : ToolLoopResult :=
  toolLoopAux llm exec msgs 0 0

-- ## Orchestrator coordination (`src/tools/orchestratorTools.ts`)

/-- A thread message as seen by the polling scans: the computed sender
(`msg.from_username || msg.from_agent || msg.sender_id || ""`) and the
parsed payload (`JSON.parse` of a string payload, or the object payload
itself; `none` when the payload was an unparseable string or a falsy
primitive, which the scan skips). -/
structure ThreadMsg where
  sender : String
  payload : Option JsValue
deriving Repr

mutual
/-- `findPayloadType(obj, targetType)` — recursively search a payload for
a sub-object whose `type` property equals the target string: non-objects
yield `null`; an object with matching `type` is returned; otherwise
recurse into property values (objects) or elements (arrays), in order. -/
def findPayloadType (target : String) (v : JsValue) : Option JsValue :=
  match v with
  | .jobj fields =>
    (match getField (.jobj fields) "type" with
     | some (.jstr s) =>
       if s = target then some (.jobj fields) else findInFields target fields
     | _ => findInFields target fields)
  | .jarr xs => findInList target xs
  | _ => none

/-- `for (const key in obj)` recursion over the properties of an object. -/
def findInFields (target : String) : List (String × JsValue) → Option JsValue
  | [] => none
  | (_, v) :: rest =>
    match findPayloadType target v with
    | some r => some r
    | none => findInFields target rest

/-- `for (const key in obj)` recursion over the elements of an array. -/
def findInList (target : String) : List JsValue → Option JsValue
  | [] => none
  | v :: rest =>
    match findPayloadType target v with
    | some r => some r
    | none => findInList target rest
end

/-- How one scanned message resolves an assignment, carrying the found
envelope. -/
inductive Resolution where
  | done (envelope : JsValue)
  | blocked (envelope : JsValue)
deriving Repr

/-- The per-message check of the `assignTasks` polling scan: parsed
payload present, then `findPayloadType(_, "done")` first,
`findPayloadType(_, "blocked")` second. -/
def scanMsg (m : ThreadMsg) : Option Resolution :=
  match m.payload with
  | none => none
  | some p =>
    match findPayloadType "done" p with
    | some v => some (.done v)
    | none =>
      match findPayloadType "blocked" p with
      | some v => some (.blocked v)
      | none => none

/-- One poll: scan the history snapshot newest-to-oldest
(`for (let i = history.messages.length - 1; i >= 0; i--)`). -/
def scanHistory (msgs : List ThreadMsg) : Option Resolution :=
  msgs.reverse.findSome? scanMsg

/-- The polling loop of one assignment: one history snapshot per poll
(5 s interval; the 5-minute timeout bounds how many snapshots are seen),
resolving at the first snapshot whose scan finds a lifecycle envelope. -/
def pollHistory (snapshots : List (List ThreadMsg)) : Option Resolution :=
  snapshots.findSome? scanHistory

/-- The result string one assignment of `assignTasks` resolves to:
success text for `done`, error text for `blocked`, timeout error line
when no poll matched within the window. -/
def resolveAssignment (agentId : String)
    (snapshots : List (List ThreadMsg)) : String :=
  match pollHistory snapshots with
  | some (.done v) =>
    "[Result from " ++ agentId ++ "]:\n" ++ textField v ++ "\n"
  | some (.blocked v) =>
    "[Error from " ++ agentId ++ "]:\nTask blocked: " ++ textField v ++ "\n"
  | none =>
    "[Error from " ++ agentId ++ "]:\nTask failed: TIMEOUT after 5 minutes.\n"

/-- `assignTasks.execute`: every assignment is dispatched and polled
concurrently (`Promise.all`), each against the snapshots of its own peer
thread; the overall result is the header plus the individually resolved
line of every assignment, joined by `"\n"`. -/
def assignTasks (jobs : List (String × List (List ThreadMsg))) : String :=
  "Dispatched " ++ toString jobs.length ++ " tasks and collected results:\n\n"
    ++ jsJoin "\n" (jobs.map (fun j => resolveAssignment j.1 j.2))

-- ### facilitateDebate

/-- `doneMsg.text || "(Empty argument)"`, then template interpolation. -/
def debateDoneText (v : JsValue) : String :=
  match getField v "text" with
  | none => "(Empty argument)"
  | some w => if jsFalsy w then "(Empty argument)" else jsDisplay w

/-- The per-message check of the debate polling scan: `done` resolves the
turn with its (fallback-filled) text, `blocked` with a blocked note. -/
def scanDebateMsg (m : ThreadMsg) : Option String :=
  match m.payload with
  | none => none
  | some p =>
    match findPayloadType "done" p with
    | some v => some (debateDoneText v)
    | none =>
      match findPayloadType "blocked" p with
      | some v => some ("(Agent blocked: " ++ textField v ++ ")")
      | none => none

/-- One debate poll: newest-to-oldest scan of the shared debate thread. -/
def scanDebateHistory (msgs : List ThreadMsg) : Option String :=
  msgs.reverse.findSome? scanDebateMsg

/-- The per-turn polling loop (5 s interval, 3-minute timeout bounding
the snapshots seen): `null` when no poll resolved the turn (timeout). -/
def pollDebateTurn (snapshots : List (List ThreadMsg)) : Option String :=
  snapshots.findSome? scanDebateHistory

/-- State threaded through the debate loops. `dispatched` records, in
order, the speakers whose turn prompt has been sent (`sendMessage`);
`prompts` the corresponding prompt texts. -/
structure DebateState where
  transcript : String
  history : String
  dispatched : List String
  prompts : List String
  aborted : Bool
deriving Repr, DecidableEq

/-- The role-specific turn prompt. -/
def debatePrompt (history speaker : String) (isFirst isLast : Bool)
    (prevSpeaker : String) : String :=
  if isFirst then
    history ++ "You are " ++ speaker ++ ". Please provide your opening argument."
  else if isLast then
    history ++ "You are " ++ speaker
      ++ ". Please provide your final rebuttal and closing statement."
  else
    history ++ "You are " ++ speaker ++ ". Please respond to " ++ prevSpeaker
      ++ "\x27s last point with your rebuttal."

/-- `` `**${speaker.toUpperCase()}**:\n${turnText}\n\n` ``. -/
def debateTurnEntry (speaker turnText : String) : String :=
  "**" ++ speaker.toUpper ++ "**:\n" ++ turnText ++ "\n\n"

/-- `` `\n[${speaker}]: ${turnText}\n\n` ``. -/
def debateHistoryEntry (speaker turnText : String) : String :=
  "\n[" ++ speaker ++ "]: " ++ turnText ++ "\n\n"

/-- `` `--- ROUND ${r} ---\n` ``. -/
def debateRoundHeader (r : Nat) : String :=
  "--- ROUND " ++ toString r ++ " ---\n"

/-- The transcript note appended when the polling of a turn times out
(`err.message` is `"TIMEOUT waiting for debate turn"`). -/
def debateTimeoutNote (speaker : String) : String :=
  "**" ++ speaker.toUpper ++ "** failed to respond: TIMEOUT waiting for debate turn\n"

/-- The inner `for (let i = 0; i < agents.length && !aborted; i++)` loop
of one debate round: build the role prompt, dispatch the turn, poll for
its resolution (`snaps k` being the snapshots the `k`-th dispatched turn
observes); a resolved turn extends transcript and history, a timeout
appends the failure note, sets `aborted` and stops. -/
def runSpeakers (snaps : Nat → List (List ThreadMsg)) (agents : List String)
    (rounds r : Nat) : Nat → List String → DebateState → DebateState
  | _, [], st => st
  | i, speaker :: rest, st =>
    if st.aborted then st
    else
      let isFirst := r == 1 && i == 0
      let isLast := r == rounds && i == agents.length - 1
      let prevSpeaker :=
        if 0 < i then agents.getD (i - 1) ""
        else agents.getD (agents.length - 1) ""
      let prompt := debatePrompt st.history speaker isFirst isLast prevSpeaker
      let k := st.dispatched.length
      let st1 := { st with dispatched := st.dispatched ++ [speaker],
                           prompts := st.prompts ++ [prompt] }
      match pollDebateTurn (snaps k) with
      | some turnText =>
        runSpeakers snaps agents rounds r (i + 1) rest
          { st1 with
              transcript := st1.transcript ++ debateTurnEntry speaker turnText,
              history := st1.history ++ debateHistoryEntry speaker turnText }
      | none =>
        { st1 with transcript := st1.transcript ++ debateTimeoutNote speaker,
                   aborted := true }

/-- The outer `for (let r = 1; r <= rounds && !aborted; r++)` loop. -/
def runRounds (snaps : Nat → List (List ThreadMsg)) (agents : List String)
    (rounds : Nat) : Nat → Nat → DebateState → DebateState
  | _, 0, st => st
  | r, fuel + 1, st =>
    if st.aborted then st
    else
      let st1 := { st with transcript := st.transcript ++ debateRoundHeader r }
      let st2 := runSpeakers snaps agents rounds r 0 agents st1
      runRounds snaps agents rounds (r + 1) fuel st2

/-- The initial transcript header and conversation-history seed. -/
def initDebateState (topic : String) (agents : List String)
    (rounds : Nat) : DebateState :=
  { transcript := "DEBATE TOPIC: " ++ topic ++ "\nPARTICIPANTS: "
      ++ jsJoin ", " agents ++ "\nROUNDS: " ++ toString rounds ++ "\n\n",
    history := "You are participating in a formal debate with "
      ++ toString agents.length ++ " participants. The topic is: "
      ++ topic ++ "\n\n",
    dispatched := [], prompts := [], aborted := false }

/-- The debate proper, after validation: clamp rounds to `[1, 5]`
(`Math.max(1, Math.min(5, args.rounds))`) and run the round-robin. -/
def runDebate (topic : String) (agents : List String) (roundsArg : Nat)
    (snaps : Nat → List (List ThreadMsg)) : DebateState :=
  let rounds := max 1 (min 5 roundsArg)
  runRounds snaps agents rounds 1 rounds (initDebateState topic agents rounds)

/-- `facilitateDebate.execute`: participant-count and distinctness
validation, then the debate, returning the final transcript string. -/
def facilitateDebate (topic : String) (agents : List String)
    (roundsArg : Nat) (snaps : Nat → List (List ThreadMsg)) : String :=
  if agents.length < 2 then "Error: Need at least 2 agents for a debate."
  else if 4 < agents.length then "Error: Maximum 4 agents per debate."
  else if ¬ agents.Nodup then "Error: Duplicate agents not allowed."
  else
    "Debate finished. Here is the full transcript. Read it carefully and summarize the outcome for the user.\n\n"
      ++ (runDebate topic agents roundsArg snaps).transcript

-- ## Lane-queue invariant lemmas

theorem laneInvariant_init : laneInvariant initAgentState := by
  constructor <;> intro h <;> simp [initAgentState] at h ⊢

theorem laneInvariant_enqueue (s : AgentState) (t : Nat)
    (h : laneInvariant s) : laneInvariant (enqueueStep s t) := by
  obtain ⟨hoff, hon⟩ := h
  unfold enqueueStep
  by_cases hp : s.processing
  · simp only [hp, if_true]
    refine ⟨fun hc => by simp [hp] at hc, fun _ => hon hp⟩
  · have hq : s.queue = [] := (hoff (by simpa using hp)).2
    have hd : s.drains = [] := (hoff (by simpa using hp)).1
    simp only [hp, if_false, Bool.false_eq_true, hq, hd]
    refine ⟨fun hc => by simp at hc, fun _ => by simp⟩

theorem laneInvariant_complete (s : AgentState)
    (h : laneInvariant s) : laneInvariant (completeStep s) := by
  obtain ⟨q, proc, d, p⟩ := s
  obtain ⟨hoff, hon⟩ := h
  cases d with
  | nil => exact ⟨hoff, hon⟩
  | cons t ds =>
    cases proc with
    | false =>
      have hd := (hoff rfl).1
      simp at hd
    | true =>
      have hds : ds = [] := by simpa using hon rfl
      subst hds
      cases q with
      | nil =>
        rw [show completeStep ⟨[], true, [t], p⟩
              = ⟨[], false, [], p ++ [t]⟩ from rfl]
        exact ⟨fun _ => ⟨rfl, rfl⟩, fun hc => by simp at hc⟩
      | cons hh rest =>
        rw [show completeStep ⟨hh :: rest, true, [t], p⟩
              = ⟨rest, true, [hh], p ++ [t]⟩ from rfl]
        exact ⟨fun hc => by simp at hc, fun _ => rfl⟩

/-- Every reachable lane state satisfies the invariant. -/
theorem laneInvariant_reachable (s : AgentState)
    (h : ReachableAgent s) : laneInvariant s := by
  induction h with
  | init => exact laneInvariant_init
  | enq t _ ih => exact laneInvariant_enqueue _ t ih
  | complete _ ih => exact laneInvariant_complete _ ih

/-- Enqueuing onto a state that is already processing with one in-flight
task only appends to the queue. -/
theorem enqueueAll_processing (q : List Nat) (d p : List Nat)
    (ts : List Nat) :
    enqueueAll ⟨q, true, d, p⟩ ts = ⟨q ++ ts, true, d, p⟩ := by
  induction ts generalizing q with
  | nil => simp [enqueueAll]
  | cons t rest ih =>
    show enqueueAll (enqueueStep ⟨q, true, d, p⟩ t) rest = _
    rw [show enqueueStep ⟨q, true, d, p⟩ t = ⟨q ++ [t], true, d, p⟩ from rfl]
    rw [ih (q ++ [t])]
    simp

/-- Enqueuing `t :: ts` from idle puts `t` in flight and `ts` in the queue. -/
theorem enqueueAll_idle (t : Nat) (ts : List Nat) :
    enqueueAll initAgentState (t :: ts) = ⟨ts, true, [t], []⟩ := by
  show enqueueAll (enqueueStep initAgentState t) ts = _
  rw [show enqueueStep initAgentState t = ⟨[], true, [t], []⟩ from rfl]
  rw [enqueueAll_processing]
  simp

/-- Draining a processing state with in-flight task `t` and queue `q`:
after `i ≤ q.length + 1` resume steps, exactly the first `i` of
`t :: q` have been processed, in order. -/
theorem completeStep_iterate_processed (i : Nat) :
    ∀ (q : List Nat) (t : Nat) (p : List Nat), i ≤ q.length + 1 →
    (completeStep^[i] ⟨q, true, [t], p⟩).processed = p ++ (t :: q).take i := by
  induction i with
  | zero => intro q t p _; simp
  | succ i ih =>
    intro q t p hle
    rw [Function.iterate_succ_apply]
    match q with
    | [] =>
      have hi : i = 0 := by
        simp at hle
        omega
      subst hi
      rw [show completeStep ⟨[], true, [t], p⟩ = ⟨[], false, [], p ++ [t]⟩ from rfl]
      simp
    | h :: rest =>
      rw [show completeStep ⟨h :: rest, true, [t], p⟩
            = ⟨rest, true, [h], p ++ [t]⟩ from rfl]
      rw [ih rest h (p ++ [t]) (by simp at hle ⊢; omega)]
      simp

/-- Draining a processing state to exhaustion: `q.length + 1` resume steps
process `t :: q` in order and return the lane to idle. -/
theorem completeStep_iterate_all :
    ∀ (q : List Nat) (t : Nat) (p : List Nat),
    completeStep^[q.length + 1] ⟨q, true, [t], p⟩ = ⟨[], false, [], p ++ t :: q⟩ := by
  intro q
  induction q with
  | nil =>
    intro t p
    simp [completeStep]
  | cons h rest ih =>
    intro t p
    rw [Function.iterate_succ_apply]
    rw [show completeStep ⟨h :: rest, true, [t], p⟩
          = ⟨rest, true, [h], p ++ [t]⟩ from rfl]
    rw [show (h :: rest).length = rest.length + 1 from rfl]
    rw [ih h (p ++ [t])]
    simp

end ExMachina

namespace ExMachina

section ClaimTheorems

/-- **C1.** For every agent, tasks are processed strictly in arrival (FIFO)
order with at most one task in flight at any time: in every reachable
state of the enqueue/drain step relation the number of in-flight tasks
(live drain instances) is at most 1, and enqueuing the messages `ts`
while the agent is idle yields exactly `ts.length` sequential processing
passes — after `i ≤ ts.length` passes exactly the first `i` messages have
been processed, in arrival order, and after `ts.length` passes all of
`ts` has been processed and the lane is idle again. -/
theorem agent_lane_fifo_single_flight :
    (∀ s : AgentState, ReachableAgent s → s.drains.length ≤ 1) ∧
    (∀ (ts : List Nat) (i : Nat), i ≤ ts.length →
      (completeStep^[i] (enqueueAll initAgentState ts)).processed = ts.take i) ∧
    (∀ ts : List Nat,
      completeStep^[ts.length] (enqueueAll initAgentState ts)
        = ⟨[], false, [], ts⟩) := by
  refine ⟨?_, ?_, ?_⟩
  · intro s hs
    obtain ⟨hoff, hon⟩ := laneInvariant_reachable s hs
    cases hp : s.processing with
    | false => simp [(hoff hp).1]
    | true => simp [hon hp]
  · intro ts i hle
    cases ts with
    | nil =>
      have hi : i = 0 := by simpa using hle
      subst hi
      simp [enqueueAll, initAgentState]
    | cons t rest =>
      rw [enqueueAll_idle]
      rw [completeStep_iterate_processed i rest t [] (by simpa using hle)]
      simp
  · intro ts
    cases ts with
    | nil => rfl
    | cons t rest =>
      rw [enqueueAll_idle]
      rw [show (t :: rest).length = rest.length + 1 from rfl]
      rw [completeStep_iterate_all rest t []]
      simp

/-- Witness for C1 at concrete inputs: two enqueues from idle keep at most
one task in flight, and enqueuing `[7, 8]` / `[7, 8, 9]` while idle is
drained by exactly that many passes, in order. -/
theorem agent_lane_fifo_single_flight_witness :
    (enqueueStep (enqueueStep initAgentState 7) 8).drains.length ≤ 1 ∧
    (completeStep^[2] (enqueueAll initAgentState [7, 8])).processed = [7, 8] ∧
    completeStep^[3] (enqueueAll initAgentState [7, 8, 9])
      = ⟨[], false, [], [7, 8, 9]⟩ := by
  refine ⟨agent_lane_fifo_single_flight.1 _
            (ReachableAgent.enq 8 (ReachableAgent.enq 7 ReachableAgent.init)),
          ?_, agent_lane_fifo_single_flight.2.2 [7, 8, 9]⟩
  have h := agent_lane_fifo_single_flight.2.1 [7, 8] 2 (by decide)
  simpa using h

/-- **C2.** `CircuitBreaker.call` implements the three-state machine
exactly: (i) a closed-state failure increments the consecutive-failure
count and transitions to open exactly when the count reaches
`failureThreshold`; (ii) a closed-state success resets the count to zero
(failures are *consecutive*); (iii) while open and within `cooldownMs` of
the last failure every call is rejected immediately, the operation is
never invoked and the breaker is unchanged; (iv) the first call once
`cooldownMs` has elapsed invokes the operation exactly once as a
half-open probe — on success the breaker closes with count zero, on
failure it reopens stamping the failure time; (v) a half-open success
closes with count zero; (vi) a half-open failure reopens and resets the
failure timestamp. -/
theorem circuitBreaker_three_state_machine :
    (∀ (b : Breaker) (t₁ t₂ : Nat), b.state = .closed →
      (b.call t₁ t₂ false).2 = .invokedErr ∧
      (b.call t₁ t₂ false).1.failureCount = b.failureCount + 1 ∧
      (b.call t₁ t₂ false).1.state
        = (if b.failureThreshold ≤ b.failureCount + 1
           then CircuitState.opened else CircuitState.closed)) ∧
    (∀ (b : Breaker) (t₁ t₂ : Nat), b.state = .closed →
      (b.call t₁ t₂ true).2 = .invokedOk ∧
      (b.call t₁ t₂ true).1.state = .closed ∧
      (b.call t₁ t₂ true).1.failureCount = 0) ∧
    (∀ (b : Breaker) (t₁ t₂ : Nat) (ok : Bool), b.state = .opened →
      t₁ - b.lastFailureTime < b.cooldownMs →
      b.call t₁ t₂ ok = (b, .fastRejected)) ∧
    (∀ (b : Breaker) (t₁ t₂ : Nat) (ok : Bool), b.state = .opened →
      ¬(t₁ - b.lastFailureTime < b.cooldownMs) →
      (b.call t₁ t₂ ok).2
        = (if ok then CallOutcome.invokedOk else CallOutcome.invokedErr) ∧
      ((b.call t₁ t₂ ok).1.state
        = (if ok then CircuitState.closed else CircuitState.opened)) ∧
      (ok = true → (b.call t₁ t₂ ok).1.failureCount = 0) ∧
      (ok = false → (b.call t₁ t₂ ok).1.lastFailureTime = t₂)) ∧
    (∀ (b : Breaker) (t₁ t₂ : Nat), b.state = .halfOpen →
      (b.call t₁ t₂ true).2 = .invokedOk ∧
      (b.call t₁ t₂ true).1.state = .closed ∧
      (b.call t₁ t₂ true).1.failureCount = 0) ∧
    (∀ (b : Breaker) (t₁ t₂ : Nat), b.state = .halfOpen →
      (b.call t₁ t₂ false).2 = .invokedErr ∧
      (b.call t₁ t₂ false).1.state = .opened ∧
      (b.call t₁ t₂ false).1.lastFailureTime = t₂) := by
  refine ⟨?_, ?_, ?_, ?_, ?_, ?_⟩
  · intro b t₁ t₂ hs
    by_cases hth : b.failureThreshold ≤ b.failureCount + 1 <;>
      simp [Breaker.call, hs, hth]
  · intro b t₁ t₂ hs
    simp [Breaker.call, hs]
  · intro b t₁ t₂ ok hs hcool
    simp [Breaker.call, hs, hcool]
  · intro b t₁ t₂ ok hs hcool
    cases ok with
    | true => simp [Breaker.call, hs, hcool]
    | false => simp [Breaker.call, hs, hcool]
  · intro b t₁ t₂ hs
    simp [Breaker.call, hs]
  · intro b t₁ t₂ hs
    simp [Breaker.call, hs]

/-- Witness for C2 at concrete breakers (threshold 2, cooldown 1000 ms):
a closed failure at count 1 opens the breaker; a closed success resets;
a call at 500 ms after the failure is rejected with the breaker
untouched; a probe at 1500 ms that fails reopens; a half-open success
closes with count zero; a half-open failure reopens stamping the time. -/
theorem circuitBreaker_three_state_machine_witness :
    ((Breaker.call ⟨.closed, 1, 0, 2, 1000⟩ 0 4 false).1.state
       = CircuitState.opened) ∧
    ((Breaker.call ⟨.closed, 1, 0, 2, 1000⟩ 0 4 true).1.failureCount = 0) ∧
    (Breaker.call ⟨.opened, 2, 100, 2, 1000⟩ 600 600 true
       = (⟨.opened, 2, 100, 2, 1000⟩, .fastRejected)) ∧
    ((Breaker.call ⟨.opened, 2, 100, 2, 1000⟩ 1600 1700 false).1.state
       = CircuitState.opened) ∧
    ((Breaker.call ⟨.halfOpen, 2, 100, 2, 1000⟩ 1600 1700 true).1.state
       = CircuitState.closed) ∧
    ((Breaker.call ⟨.halfOpen, 2, 100, 2, 1000⟩ 1600 1700 false).1.lastFailureTime
       = 1700) := by
  refine ⟨?_, ?_, ?_, ?_, ?_, ?_⟩
  · have h := circuitBreaker_three_state_machine.1 ⟨.closed, 1, 0, 2, 1000⟩ 0 4 rfl
    rw [h.2.2]
    decide
  · exact (circuitBreaker_three_state_machine.2.1
      ⟨.closed, 1, 0, 2, 1000⟩ 0 4 rfl).2.2
  · exact circuitBreaker_three_state_machine.2.2.1
      ⟨.opened, 2, 100, 2, 1000⟩ 600 600 true rfl (by decide)
  · have h := circuitBreaker_three_state_machine.2.2.2.1
      ⟨.opened, 2, 100, 2, 1000⟩ 1600 1700 false rfl (by decide)
    rw [h.2.1]
    decide
  · exact (circuitBreaker_three_state_machine.2.2.2.2.1
      ⟨.halfOpen, 2, 100, 2, 1000⟩ 1600 1700 rfl).2.1
  · exact (circuitBreaker_three_state_machine.2.2.2.2.2
      ⟨.halfOpen, 2, 100, 2, 1000⟩ 1600 1700 rfl).2.2

theorem retryFrom_invocations_le {E T : Type} (fn : Nat → Except E T)
    (p : Option (E → Bool)) (base maxD : Nat) (jit : Nat → Nat) :
    ∀ (fuel attempt : Nat),
    (retryFrom fn p base maxD jit attempt fuel).invocations ≤ fuel + 1 := by
  intro fuel
  induction fuel with
  | zero =>
    intro attempt
    cases hfa : fn attempt with
    | ok v => rw [retryFrom]; simp [hfa]
    | error e =>
      cases hre : retryRejects p e <;> (rw [retryFrom]; simp [hfa, hre])
  | succ fuel ih =>
    intro attempt
    cases hfa : fn attempt with
    | ok v => rw [retryFrom]; simp [hfa]
    | error e =>
      cases hre : retryRejects p e with
      | true => rw [retryFrom]; simp [hfa, hre]
      | false =>
        rw [retryFrom]
        simp only [hfa, hre, Bool.false_eq_true, if_false]
        have := ih (attempt + 1)
        omega

theorem retryFrom_invocations_pos {E T : Type} (fn : Nat → Except E T)
    (p : Option (E → Bool)) (base maxD : Nat) (jit : Nat → Nat)
    (fuel attempt : Nat) :
    1 ≤ (retryFrom fn p base maxD jit attempt fuel).invocations := by
  cases hfa : fn attempt with
  | ok v => rw [retryFrom]; simp [hfa]
  | error e =>
    cases hre : retryRejects p e with
    | true => rw [retryFrom]; simp [hfa, hre]
    | false =>
      cases fuel with
      | zero => rw [retryFrom]; simp [hfa, hre]
      | succ fuel' =>
        rw [retryFrom]
        simp only [hfa, hre, Bool.false_eq_true, if_false]
        omega

theorem retryFrom_first_success {E T : Type} (fn : Nat → Except E T)
    (p : Option (E → Bool)) (base maxD : Nat) (jit : Nat → Nat) (v : T) :
    ∀ (k attempt fuel : Nat), k ≤ fuel →
    (∀ i, i < k → ∃ e, fn (attempt + i) = .error e ∧ retryRejects p e = false) →
    fn (attempt + k) = .ok v →
    (retryFrom fn p base maxD jit attempt fuel).result = .ok v ∧
    (retryFrom fn p base maxD jit attempt fuel).invocations = k + 1 := by
  intro k
  induction k with
  | zero =>
    intro attempt fuel _ _ hok
    rw [Nat.add_zero] at hok
    cases fuel <;> (rw [retryFrom]; simp [hok])
  | succ k ih =>
    intro attempt fuel hk hfail hok
    obtain ⟨e, he, hre⟩ := hfail 0 (Nat.succ_pos k)
    rw [Nat.add_zero] at he
    cases fuel with
    | zero => omega
    | succ fuel' =>
      have h2 : ∀ i, i < k →
          ∃ e', fn (attempt + 1 + i) = .error e' ∧ retryRejects p e' = false := by
        intro i hi
        have h := hfail (i + 1) (by omega)
        rwa [show attempt + (i + 1) = attempt + 1 + i by omega] at h
      have h3 : fn (attempt + 1 + k) = .ok v := by
        rwa [show attempt + (k + 1) = attempt + 1 + k by omega] at hok
      have hrec := ih (attempt + 1) fuel' (by omega) h2 h3
      constructor
      · rw [retryFrom]
        simp only [he, hre, Bool.false_eq_true, if_false]
        exact hrec.1
      · rw [retryFrom]
        simp only [he, hre, Bool.false_eq_true, if_false]
        rw [hrec.2]

theorem retryFrom_exhausted {E T : Type} (fn : Nat → Except E T)
    (p : Option (E → Bool)) (base maxD : Nat) (jit : Nat → Nat) (eLast : E) :
    ∀ (fuel attempt : Nat),
    (∀ i, i ≤ fuel → ∃ e, fn (attempt + i) = .error e ∧ retryRejects p e = false) →
    fn (attempt + fuel) = .error eLast →
    (retryFrom fn p base maxD jit attempt fuel).result = .error eLast ∧
    (retryFrom fn p base maxD jit attempt fuel).invocations = fuel + 1 := by
  intro fuel
  induction fuel with
  | zero =>
    intro attempt hAll hLast
    rw [Nat.add_zero] at hLast
    obtain ⟨e, he, hre⟩ := hAll 0 le_rfl
    rw [Nat.add_zero] at he
    have heq : e = eLast := by
      rw [he] at hLast
      injection hLast
    subst heq
    rw [retryFrom]
    simp [he, hre]
  | succ fuel ih =>
    intro attempt hAll hLast
    obtain ⟨e, he, hre⟩ := hAll 0 (Nat.zero_le _)
    rw [Nat.add_zero] at he
    have h2 : ∀ i, i ≤ fuel →
        ∃ e', fn (attempt + 1 + i) = .error e' ∧ retryRejects p e' = false := by
      intro i hi
      have h := hAll (i + 1) (by omega)
      rwa [show attempt + (i + 1) = attempt + 1 + i by omega] at h
    have h3 : fn (attempt + 1 + fuel) = .error eLast := by
      rwa [show attempt + (fuel + 1) = attempt + 1 + fuel by omega] at hLast
    have hrec := ih (attempt + 1) h2 h3
    constructor
    · rw [retryFrom]
      simp only [he, hre, Bool.false_eq_true, if_false]
      exact hrec.1
    · rw [retryFrom]
      simp only [he, hre, Bool.false_eq_true, if_false]
      rw [hrec.2]

theorem retryFrom_sleeps_eq {E T : Type} (fn : Nat → Except E T)
    (p : Option (E → Bool)) (base maxD : Nat) (jit : Nat → Nat) :
    ∀ (fuel attempt : Nat),
    (retryFrom fn p base maxD jit attempt fuel).sleeps
      = (List.range ((retryFrom fn p base maxD jit attempt fuel).invocations - 1)).map
          (fun i => min (base * 2 ^ (attempt + i) + jit (attempt + i)) maxD) := by
  intro fuel
  induction fuel with
  | zero =>
    intro attempt
    cases hfa : fn attempt with
    | ok v => rw [retryFrom]; simp [hfa]
    | error e =>
      cases hre : retryRejects p e <;> (rw [retryFrom]; simp [hfa, hre])
  | succ fuel ih =>
    intro attempt
    cases hfa : fn attempt with
    | ok v => rw [retryFrom]; simp [hfa]
    | error e =>
      cases hre : retryRejects p e with
      | true => rw [retryFrom]; simp [hfa, hre]
      | false =>
        rw [retryFrom]
        simp only [hfa, hre, Bool.false_eq_true, if_false]
        rw [ih (attempt + 1)]
        have hpos := retryFrom_invocations_pos fn p base maxD jit fuel (attempt + 1)
        obtain ⟨m, hm⟩ : ∃ m,
            (retryFrom fn p base maxD jit (attempt + 1) fuel).invocations
              = m + 1 :=
          ⟨(retryFrom fn p base maxD jit (attempt + 1) fuel).invocations - 1,
            by omega⟩
        rw [hm]
        simp only [Nat.add_sub_cancel]
        rw [List.range_succ_eq_map]
        simp only [List.map_cons, List.map_map, List.cons.injEq]
        constructor
        · simp
        · apply List.map_congr_left
          intro i _
          simp only [Function.comp_apply]
          rw [show attempt + 1 + i = attempt + (i + 1) by omega]

/-- **C3.** `withRetry` invokes the operation at most `maxRetries + 1`
times; it returns the first successful result (`k` retryable failures
followed by a success, `k ≤ maxRetries`, yield that success after exactly
`k + 1` invocations); when a supplied retry predicate classifies the
first error as not retryable the operation is invoked exactly once, that
error propagates and no sleep occurs; after exhausting all retries the
last error propagates unchanged after `maxRetries + 1` invocations; and
before the `i`-th retry it sleeps
`min(baseDelayMs * 2 ^ i + jitter_i, maxDelayMs)` where `jitter_i` is
the `Math.random() * 500 ∈ [0, 500)` draw. -/
theorem withRetry_retry_semantics :
    (∀ (E T : Type) (fn : Nat → Except E T) (p : Option (E → Bool))
       (base maxD : Nat) (jit : Nat → Nat) (maxRetries : Nat),
      (withRetry fn maxRetries base maxD p jit).invocations ≤ maxRetries + 1) ∧
    (∀ (E T : Type) (fn : Nat → Except E T) (p : Option (E → Bool))
       (base maxD : Nat) (jit : Nat → Nat) (maxRetries k : Nat) (v : T),
      k ≤ maxRetries →
      (∀ i, i < k → ∃ e, fn i = .error e ∧ retryRejects p e = false) →
      fn k = .ok v →
      (withRetry fn maxRetries base maxD p jit).result = .ok v ∧
      (withRetry fn maxRetries base maxD p jit).invocations = k + 1) ∧
    (∀ (E T : Type) (fn : Nat → Except E T) (pr : E → Bool) (e : E)
       (base maxD : Nat) (jit : Nat → Nat) (maxRetries : Nat),
      fn 0 = .error e → pr e = false →
      withRetry fn maxRetries base maxD (some pr) jit
        = ⟨.error e, 1, []⟩) ∧
    (∀ (E T : Type) (fn : Nat → Except E T) (p : Option (E → Bool))
       (base maxD : Nat) (jit : Nat → Nat) (maxRetries : Nat) (eLast : E),
      (∀ i, i ≤ maxRetries → ∃ e, fn i = .error e ∧ retryRejects p e = false) →
      fn maxRetries = .error eLast →
      (withRetry fn maxRetries base maxD p jit).result = .error eLast ∧
      (withRetry fn maxRetries base maxD p jit).invocations = maxRetries + 1) ∧
    (∀ (E T : Type) (fn : Nat → Except E T) (p : Option (E → Bool))
       (base maxD : Nat) (jit : Nat → Nat) (maxRetries : Nat),
      (∀ i, jit i < 500) →
      (withRetry fn maxRetries base maxD p jit).sleeps
        = (List.range ((withRetry fn maxRetries base maxD p jit).invocations - 1)).map
            (fun i => min (base * 2 ^ i + jit i) maxD)) := by
  refine ⟨?_, ?_, ?_, ?_, ?_⟩
  · intro E T fn p base maxD jit maxRetries
    exact retryFrom_invocations_le fn p base maxD jit maxRetries 0
  · intro E T fn p base maxD jit maxRetries k v hk hfail hok
    exact retryFrom_first_success fn p base maxD jit v k 0 maxRetries hk
      (by simpa using hfail) (by simpa using hok)
  · intro E T fn pr e base maxD jit maxRetries h0 hpf
    unfold withRetry
    rw [retryFrom]
    simp [h0, retryRejects, hpf]
  · intro E T fn p base maxD jit maxRetries eLast hAll hLast
    exact retryFrom_exhausted fn p base maxD jit eLast maxRetries 0
      (by simpa using hAll) (by simpa using hLast)
  · intro E T fn p base maxD jit maxRetries _
    have h := retryFrom_sleeps_eq fn p base maxD jit maxRetries 0
    simpa [withRetry] using h

/-- Witness for C3: with `maxRetries = 2`, `baseDelayMs = 100` and an
operation failing on attempts 0 and 1 then succeeding, the result is the
success value after exactly 3 invocations, with two back-off sleeps of
`min(100 * 2 ^ i + 7, 15000)`; a failing operation under an
always-false retry predicate is invoked exactly once and its error
propagates with no sleep. -/
theorem withRetry_retry_semantics_witness :
    ((withRetry (fun i => if i < 2 then Except.error "boom" else Except.ok 42)
        2 100 15000 none (fun _ => 7)).invocations ≤ 3) ∧
    ((withRetry (fun i => if i < 2 then Except.error "boom" else Except.ok 42)
        2 100 15000 none (fun _ => 7)).result = Except.ok 42) ∧
    ((withRetry (fun i => if i < 2 then Except.error "boom" else Except.ok 42)
        2 100 15000 none (fun _ => 7)).invocations = 3) ∧
    (withRetry (fun _ : Nat => (Except.error "boom" : Except String Nat))
        2 100 15000 (some (fun _ => false)) (fun _ => 7)
      = ⟨Except.error "boom", 1, []⟩) ∧
    ((withRetry (fun i => if i < 2 then Except.error "boom" else Except.ok 42)
        2 100 15000 none (fun _ => 7)).sleeps
      = (List.range
          ((withRetry (fun i => if i < 2 then Except.error "boom" else Except.ok 42)
              2 100 15000 none (fun _ => 7)).invocations - 1)).map
          (fun i => min (100 * 2 ^ i + 7) 15000)) := by
  have hfs := withRetry_retry_semantics.2.1 String Nat
    (fun i => if i < 2 then Except.error "boom" else Except.ok 42)
    none 100 15000 (fun _ => 7) 2 2 42 (by omega)
    (fun i hi => ⟨"boom", by simp [hi], rfl⟩) (by simp)
  refine ⟨?_, hfs.1, hfs.2, ?_, ?_⟩
  · exact withRetry_retry_semantics.1 String Nat
      (fun i => if i < 2 then Except.error "boom" else Except.ok 42)
      none 100 15000 (fun _ => 7) 2
  · exact withRetry_retry_semantics.2.2.1 String Nat
      (fun _ => Except.error "boom") (fun _ => false) "boom"
      100 15000 (fun _ => 7) 2 rfl rfl
  · exact withRetry_retry_semantics.2.2.2.2 String Nat
      (fun i => if i < 2 then Except.error "boom" else Except.ok 42)
      none 100 15000 (fun _ => 7) 2 (fun i => by show 7 < 500; decide)

theorem toolLoopAux_calls_le (llm : List ChatMessage → LlmReply)
    (exec : String → String → String) :
    ∀ (k : Nat) (msgs : List ChatMessage) (round calls : Nat),
    round + k = MAX_TOOL_ROUNDS →
    (toolLoopAux llm exec msgs round calls).llmCalls ≤ calls + k := by
  intro k
  induction k with
  | zero =>
    intro msgs round calls hr
    rw [toolLoopAux, dif_pos (by omega)]
    show calls ≤ calls + 0
    omega
  | succ k ih =>
    intro msgs round calls hr
    rw [toolLoopAux, dif_neg (by omega)]
    cases hl : llm msgs with
    | toolCall n a =>
      exact le_trans (ih _ (round + 1) (calls + 1) (by omega)) (by omega)
    | text s =>
      show (if s = "" then toolLoopAux llm exec msgs (round + 1) (calls + 1)
            else ⟨s, calls + 1, msgs⟩).llmCalls ≤ calls + (k + 1)
      by_cases hs : s = ""
      · rw [if_pos hs]
        exact le_trans (ih msgs (round + 1) (calls + 1) (by omega)) (by omega)
      · rw [if_neg hs]
        show calls + 1 ≤ calls + (k + 1)
        omega

theorem toolLoopAux_always_toolCall (llm : List ChatMessage → LlmReply)
    (exec : String → String → String)
    (hllm : ∀ ms, ∃ n a, llm ms = .toolCall n a) :
    ∀ (k : Nat) (msgs : List ChatMessage) (round calls : Nat),
    round + k = MAX_TOOL_ROUNDS →
    (toolLoopAux llm exec msgs round calls).finalResponse = toolLimitResponse ∧
    (toolLoopAux llm exec msgs round calls).llmCalls = calls + k := by
  intro k
  induction k with
  | zero =>
    intro msgs round calls hr
    rw [toolLoopAux, dif_pos (by omega)]
    exact ⟨rfl, rfl⟩
  | succ k ih =>
    intro msgs round calls hr
    obtain ⟨n, a, hl⟩ := hllm msgs
    rw [toolLoopAux, dif_neg (by omega), hl]
    constructor
    · exact (ih _ (round + 1) (calls + 1) (by omega)).1
    · exact ((ih _ (round + 1) (calls + 1) (by omega)).2).trans (by omega)

/-- **C7.** The per-task tool-calling loop is bounded: for every LLM
behaviour it invokes the LLM at most `MAX_TOOL_ROUNDS = 10` times, and
with an LLM that always returns a tool-call request it invokes the LLM
exactly 10 times and then terminates with the fallback tool-limit
response — task processing never loops indefinitely (the loop is a total
function). -/
theorem agent_tool_loop_bounded :
    (∀ (llm : List ChatMessage → LlmReply) (exec : String → String → String)
       (msgs : List ChatMessage),
      (handleToolLoop llm exec msgs).llmCalls ≤ MAX_TOOL_ROUNDS) ∧
    (∀ (llm : List ChatMessage → LlmReply) (exec : String → String → String)
       (msgs : List ChatMessage),
      (∀ ms, ∃ n a, llm ms = .toolCall n a) →
      (handleToolLoop llm exec msgs).finalResponse = toolLimitResponse ∧
      (handleToolLoop llm exec msgs).llmCalls = MAX_TOOL_ROUNDS) := by
  constructor
  · intro llm exec msgs
    have h := toolLoopAux_calls_le llm exec MAX_TOOL_ROUNDS msgs 0 0 (by omega)
    simpa [handleToolLoop] using h
  · intro llm exec msgs hllm
    have h := toolLoopAux_always_toolCall llm exec hllm MAX_TOOL_ROUNDS msgs 0 0
      (by omega)
    simpa [handleToolLoop] using h

/-- Witness for C7: an LLM that always requests the tool `t` makes the
loop stop after exactly 10 LLM calls with the fallback response. -/
theorem agent_tool_loop_bounded_witness :
    (handleToolLoop (fun _ => LlmReply.toolCall "t" "\x7b\x7d")
        (fun _ _ => "r") []).llmCalls ≤ 10 ∧
    (handleToolLoop (fun _ => LlmReply.toolCall "t" "\x7b\x7d")
        (fun _ _ => "r") []).finalResponse
      = "I hit my tool execution limit. Here is what I have so far." ∧
    (handleToolLoop (fun _ => LlmReply.toolCall "t" "\x7b\x7d")
        (fun _ _ => "r") []).llmCalls = 10 := by
  have h1 := agent_tool_loop_bounded.1
    (fun _ => LlmReply.toolCall "t" "\x7b\x7d") (fun _ _ => "r") []
  have h2 := agent_tool_loop_bounded.2
    (fun _ => LlmReply.toolCall "t" "\x7b\x7d") (fun _ _ => "r") []
    (fun ms => ⟨"t", "\x7b\x7d", rfl⟩)
  exact ⟨h1, h2.1, h2.2⟩

/-- **C8.** `buildPeerThreadId(main, a, b, round)` equals
`main ++ "::" ++ sort([a,b]).join("_") ++ "::r" ++ round`, where
`sort([a,b])` really sorts (it is ordered and a permutation of `[a, b]`);
the id is commutative in the agent pair; and changing only `round`
changes only the trailing `"::r<round>"` suffix (the prefix is
independent of the round). -/
theorem buildPeerThreadId_spec :
    (∀ (m a b : String) (r : Nat),
      buildPeerThreadId m a b r
        = m ++ "::" ++ jsJoin "_" (sortPair a b) ++ "::r" ++ toString r) ∧
    (∀ a b : String,
      (sortPair a b).Sorted (· ≤ ·) ∧ List.Perm (sortPair a b) [a, b]) ∧
    (∀ (m a b : String) (r : Nat),
      buildPeerThreadId m a b r = buildPeerThreadId m b a r) ∧
    (∀ (m a b : String) (r₁ r₂ : Nat), ∃ p : String,
      buildPeerThreadId m a b r₁ = p ++ "::r" ++ toString r₁ ∧
      buildPeerThreadId m a b r₂ = p ++ "::r" ++ toString r₂) := by
  refine ⟨fun m a b r => rfl, ?_, ?_, ?_⟩
  · intro a b
    constructor
    · unfold sortPair
      by_cases hab : a ≤ b
      · rw [if_pos hab]
        refine List.sorted_cons.mpr ⟨?_, List.sorted_singleton b⟩
        intro x hx
        rw [List.mem_singleton] at hx
        rw [hx]
        exact hab
      · rw [if_neg hab]
        refine List.sorted_cons.mpr ⟨?_, List.sorted_singleton a⟩
        intro x hx
        rw [List.mem_singleton] at hx
        rw [hx]
        exact le_of_not_le hab
    · unfold sortPair
      by_cases hab : a ≤ b
      · rw [if_pos hab]
      · rw [if_neg hab]
        exact List.Perm.swap a b []
  · intro m a b r
    unfold buildPeerThreadId sortPair
    rcases le_total a b with h | h
    · by_cases h2 : b ≤ a
      · have heq : a = b := le_antisymm h h2
        subst heq
        rfl
      · simp [h, h2]
    · by_cases h2 : a ≤ b
      · have heq : a = b := le_antisymm h2 h
        subst heq
        rfl
      · simp [h, h2]
  · intro m a b r₁ r₂
    exact ⟨m ++ "::" ++ jsJoin "_" (sortPair a b), rfl, rfl⟩

/-- **C9 counterexample.** The `TaskStatus` union in the source is exactly
`{assign, progress, blocked, done, review, chat}` — it does not contain
`"checkpoint"`, so the claimed seven-element type set is wrong on the
code (the compaction module sends its checkpoint as an ad-hoc object,
not as a `ProtocolMessage`). -/
theorem taskStatus_has_no_checkpoint :
    [TaskStatus.assign, .progress, .blocked, .done, .review, .chat].map taskStatusStr
      = taskStatusStrings ∧
    "checkpoint" ∉ taskStatusStrings ∧
    taskStatusStrings.length = 6 := by
  refine ⟨rfl, ?_, rfl⟩
  decide

theorem jsTypeofIsString_eq_true_iff (o : Option JsValue) :
    jsTypeofIsString o = true ↔ ∃ s, o = some (.jstr s) := by
  cases o with
  | none => simp [jsTypeofIsString]
  | some v => cases v <;> simp [jsTypeofIsString]

/-- **C9 (amended).** The `type` field of the `ProtocolMessage` envelope
ranges over the closed six-element set
`{assign, progress, blocked, done, review, chat}`; every serialized
envelope carries `type` and `text` as string properties; every `assign`
envelope built by `createAssign` carries its assignee; and the type
guard `isProtocolMessage` accepts exactly the non-null objects whose
`type` and `text` fields are both strings. -/
theorem protocolMessage_envelope_spec :
    (∀ p : ProtocolMessage, taskStatusStr p.type ∈ taskStatusStrings) ∧
    (∀ p : ProtocolMessage,
      getField p.toJs "type" = some (.jstr (taskStatusStr p.type)) ∧
      getField p.toJs "text" = some (.jstr p.text)) ∧
    (∀ assignee instructions : String,
      (createAssign assignee instructions).assignee = some assignee ∧
      (createAssign assignee instructions).type = .assign) ∧
    (∀ v : JsValue,
      isProtocolMessage v = true ↔
        jsTypeofIsObject v = true ∧ jsIsNull v = false ∧
        (∃ s, getField v "type" = some (.jstr s)) ∧
        (∃ s, getField v "text" = some (.jstr s))) := by
  refine ⟨?_, ?_, fun a i => ⟨rfl, rfl⟩, ?_⟩
  · intro p
    cases p.type <;> simp [taskStatusStr, taskStatusStrings]
  · intro p
    constructor <;> simp [ProtocolMessage.toJs, getField]
  · intro v
    cases v with
    | jobj fields =>
      simp [isProtocolMessage, jsTypeofIsObject, jsIsNull,
        jsTypeofIsString_eq_true_iff]
    | jarr xs =>
      simp [isProtocolMessage, jsTypeofIsObject, jsIsNull, getField,
        jsTypeofIsString]
    | jnull =>
      simp [isProtocolMessage, jsTypeofIsObject, jsIsNull]
    | jstr s =>
      simp [isProtocolMessage, jsTypeofIsObject, jsIsNull]
    | jnum n =>
      simp [isProtocolMessage, jsTypeofIsObject, jsIsNull]
    | jbool b =>
      simp [isProtocolMessage, jsTypeofIsObject, jsIsNull]

theorem findSome?_map_sender {α : Type} (scan : ThreadMsg → Option α)
    (hscan : ∀ (s s' : String) (p : Option JsValue), scan ⟨s, p⟩ = scan ⟨s', p⟩)
    (msgs : List ThreadMsg) (f : String → String) :
    (msgs.map (fun m => (⟨f m.sender, m.payload⟩ : ThreadMsg))).findSome? scan
      = msgs.findSome? scan := by
  induction msgs with
  | nil => rfl
  | cons m rest ih =>
    obtain ⟨s, p⟩ := m
    simp only [List.map_cons, List.findSome?_cons]
    rw [hscan (f s) s p]
    cases h : scan ⟨s, p⟩ <;> simp [h, ih]

/-- **C4.** Each `assignTasks` assignment resolves independently from the
history of its own peer thread: a found `done` yields the success text of
that assignment, a found `blocked` its error text, and no match across the
polling window its timeout error line; the scan honours newest-to-oldest
order (a resolving message appended last wins); the overall call returns
the header plus one resolved line per assignment — all of them, so one
never-responding assignment neither prevents the call from returning nor
affects the result of a sibling. -/
theorem assignTasks_collects_every_assignment :
    (∀ (name : String) (snaps : List (List ThreadMsg)) (v : JsValue),
      pollHistory snaps = some (.done v) →
      resolveAssignment name snaps
        = "[Result from " ++ name ++ "]:\n" ++ textField v ++ "\n") ∧
    (∀ (name : String) (snaps : List (List ThreadMsg)) (v : JsValue),
      pollHistory snaps = some (.blocked v) →
      resolveAssignment name snaps
        = "[Error from " ++ name ++ "]:\nTask blocked: " ++ textField v ++ "\n") ∧
    (∀ (name : String) (snaps : List (List ThreadMsg)),
      pollHistory snaps = none →
      resolveAssignment name snaps
        = "[Error from " ++ name ++ "]:\nTask failed: TIMEOUT after 5 minutes.\n") ∧
    (∀ jobs : List (String × List (List ThreadMsg)),
      assignTasks jobs
        = "Dispatched " ++ toString jobs.length
            ++ " tasks and collected results:\n\n"
            ++ jsJoin "\n" (jobs.map (fun j => resolveAssignment j.1 j.2))) ∧
    (∀ (a b : String) (sa sb : List (List ThreadMsg)),
      assignTasks [(a, sa), (b, sb)]
        = "Dispatched " ++ toString (2 : Nat)
            ++ " tasks and collected results:\n\n"
            ++ (resolveAssignment a sa ++ "\n" ++ resolveAssignment b sb)) ∧
    (∀ (msgs : List ThreadMsg) (m : ThreadMsg) (r : Resolution),
      scanMsg m = some r → scanHistory (msgs ++ [m]) = some r) := by
  refine ⟨?_, ?_, ?_, fun jobs => rfl, fun a b sa sb => rfl, ?_⟩
  · intro name snaps v h
    simp [resolveAssignment, h]
  · intro name snaps v h
    simp [resolveAssignment, h]
  · intro name snaps h
    simp [resolveAssignment, h]
  · intro msgs m r h
    unfold scanHistory
    rw [List.reverse_append]
    simp [List.findSome?_cons, h]

/-- Witness for C4: a peer thread whose single snapshot holds a `done`
envelope resolves to the success line; empty snapshots resolve to the
timeout line; a `done` envelope appended newest wins the scan. -/
theorem assignTasks_collects_every_assignment_witness :
    resolveAssignment "agent1"
      [[⟨"agent1", some (JsValue.jobj
          [("type", JsValue.jstr "done"), ("text", JsValue.jstr "ok")])⟩]]
      = "[Result from agent1]:\nok\n" ∧
    resolveAssignment "agent2" [[], []]
      = "[Error from agent2]:\nTask failed: TIMEOUT after 5 minutes.\n" ∧
    scanHistory
      ([⟨"orchestrator_v1", some (JsValue.jobj
          [("type", JsValue.jstr "assign"), ("text", JsValue.jstr "go")])⟩]
        ++ [⟨"agent1", some (JsValue.jobj
          [("type", JsValue.jstr "done"), ("text", JsValue.jstr "ok")])⟩])
      = some (.done (JsValue.jobj
          [("type", JsValue.jstr "done"), ("text", JsValue.jstr "ok")])) := by
  refine ⟨?_, ?_, ?_⟩
  · exact assignTasks_collects_every_assignment.1 "agent1"
      [[⟨"agent1", some (JsValue.jobj
          [("type", JsValue.jstr "done"), ("text", JsValue.jstr "ok")])⟩]]
      (JsValue.jobj [("type", JsValue.jstr "done"), ("text", JsValue.jstr "ok")])
      rfl
  · exact assignTasks_collects_every_assignment.2.2.1 "agent2" [[], []] rfl
  · exact assignTasks_collects_every_assignment.2.2.2.2.2
      [⟨"orchestrator_v1", some (JsValue.jobj
          [("type", JsValue.jstr "assign"), ("text", JsValue.jstr "go")])⟩]
      ⟨"agent1", some (JsValue.jobj
          [("type", JsValue.jstr "done"), ("text", JsValue.jstr "ok")])⟩
      (.done (JsValue.jobj
          [("type", JsValue.jstr "done"), ("text", JsValue.jstr "ok")]))
      rfl

/-- **C10.** In the `assignTasks` polling scan, a thread message resolves
the assignment based solely on the shape of its payload: the per-message
check never reads the sender field (rewriting every sender arbitrarily
changes nothing), and a payload recursively containing a `done`
sub-object resolves the assignment to the success line no matter which
agent sent it. -/
theorem assignTasks_scan_ignores_sender :
    (∀ (s s' : String) (p : Option JsValue),
      scanMsg ⟨s, p⟩ = scanMsg ⟨s', p⟩) ∧
    (∀ (msgs : List ThreadMsg) (f : String → String),
      scanHistory (msgs.map (fun m => ⟨f m.sender, m.payload⟩))
        = scanHistory msgs) ∧
    (∀ (assignedAgent sender : String) (p v : JsValue),
      findPayloadType "done" p = some v →
      resolveAssignment assignedAgent [[⟨sender, some p⟩]]
        = "[Result from " ++ assignedAgent ++ "]:\n" ++ textField v ++ "\n") := by
  refine ⟨fun s s' p => rfl, ?_, ?_⟩
  · intro msgs f
    unfold scanHistory
    rw [← List.map_reverse]
    exact findSome?_map_sender scanMsg (fun s s' p => rfl) msgs.reverse f
  · intro assignedAgent sender p v h
    simp [resolveAssignment, pollHistory, scanHistory, scanMsg,
      List.findSome?_cons, h]

/-- Witness for C10: a `done` envelope sent by `someoneElse` — not the
assigned `agent1` — still resolves the assignment of `agent1` to the success
line. -/
theorem assignTasks_scan_ignores_sender_witness :
    resolveAssignment "agent1"
      [[⟨"someoneElse", some (JsValue.jobj
          [("type", JsValue.jstr "done"), ("text", JsValue.jstr "hi")])⟩]]
      = "[Result from agent1]:\nhi\n" := by
  exact assignTasks_scan_ignores_sender.2.2 "agent1" "someoneElse"
    (JsValue.jobj [("type", JsValue.jstr "done"), ("text", JsValue.jstr "hi")])
    (JsValue.jobj [("type", JsValue.jstr "done"), ("text", JsValue.jstr "hi")])
    rfl

/-- **C6 (code bug).** The debate turn-polling scan computes the message
sender but never compares it with the current speaker: rewriting every
sender changes nothing, and a shared debate thread holding the `assign`
just sent to the current speaker `b` plus an *earlier* `done` from the
previous speaker `a` resolves the turn of `b` immediately with the text
of `a` — the orchestrator advances on the envelope of a different agent,
contradicting the spec, which says the orchestrator polls for the
done/blocked response of that speaker. -/
theorem debate_poll_accepts_any_sender :
    (∀ (s s' : String) (p : Option JsValue),
      scanDebateMsg ⟨s, p⟩ = scanDebateMsg ⟨s', p⟩) ∧
    (∀ (msgs : List ThreadMsg) (f : String → String),
      scanDebateHistory (msgs.map (fun m => ⟨f m.sender, m.payload⟩))
        = scanDebateHistory msgs) ∧
    scanDebateHistory
      [⟨"a", some ((createDone "argument of a").toJs)⟩,
       ⟨"orchestrator_v1", some ((createAssign "b" "your turn").toJs)⟩]
      = some "argument of a" ∧
    pollDebateTurn
      [[⟨"a", some ((createDone "argument of a").toJs)⟩,
        ⟨"orchestrator_v1", some ((createAssign "b" "your turn").toJs)⟩]]
      = some "argument of a" := by
  refine ⟨fun s s' p => rfl, ?_, rfl, rfl⟩
  intro msgs f
  unfold scanDebateHistory
  rw [← List.map_reverse]
  exact findSome?_map_sender scanDebateMsg (fun s s' p => rfl) msgs.reverse f

/-- **C5 counterexample.** With agents `[a, b]` and 2 rounds the dispatch
order is `a, b, a, b`, so the second turn of `b` is the *last* turn: when
it times out (turn index 3, whose polls never resolve), the round-2 turn
of `a` (turn index 2) has already been dispatched — the debate dispatches
all four turns, contrary to the claim that the round-2 turn of `a` is
never dispatched in that case.  The final `aborted` flag shows the timeout was
registered. -/
theorem facilitateDebate_last_turn_timeout_dispatches_all :
    (runDebate "T" ["a", "b"] 2
      (fun k => if k = 3 then [[]]
        else [[⟨"w", some ((createDone "arg").toJs)⟩]])).dispatched
      = ["a", "b", "a", "b"] ∧
    pollDebateTurn [[]] = none ∧
    (runDebate "T" ["a", "b"] 2
      (fun k => if k = 3 then [[]]
        else [[⟨"w", some ((createDone "arg").toJs)⟩]])).aborted = true := by
  refine ⟨rfl, rfl, rfl⟩

/-- **C5 (amended).** `facilitateDebate` with participants `[a, b]` and
`rounds = 2` dispatches exactly 4 turns in the order `a, b, a, b` when
every turn resolves; if the turn at dispatch index `j` times out, only
the first `j + 1` turns are ever dispatched (every not-yet-dispatched
turn is skipped — in particular, if the *first* turn of `b` times out,
the round-2 turn of `a` is never dispatched), the run is aborted, and the partial
transcript ends with the failure note for the timed-out speaker. -/
theorem facilitateDebate_turn_order_and_abort :
    (∀ (topic a b : String) (snaps : Nat → List (List ThreadMsg))
       (tx : Nat → String),
      (∀ k, k < 4 → pollDebateTurn (snaps k) = some (tx k)) →
      (runDebate topic [a, b] 2 snaps).dispatched = [a, b, a, b] ∧
      (runDebate topic [a, b] 2 snaps).aborted = false) ∧
    (∀ (topic a b : String) (snaps : Nat → List (List ThreadMsg))
       (tx : Nat → String) (j : Nat),
      j < 4 →
      (∀ k, k < j → pollDebateTurn (snaps k) = some (tx k)) →
      pollDebateTurn (snaps j) = none →
      (runDebate topic [a, b] 2 snaps).dispatched = [a, b, a, b].take (j + 1) ∧
      (runDebate topic [a, b] 2 snaps).aborted = true ∧
      ∃ pre, (runDebate topic [a, b] 2 snaps).transcript
        = pre ++ debateTimeoutNote ([a, b, a, b].getD j "")) := by
  constructor
  · intro topic a b snaps tx hall
    have h0 := hall 0 (by omega)
    have h1 := hall 1 (by omega)
    have h2 := hall 2 (by omega)
    have h3 := hall 3 (by omega)
    constructor <;>
      simp [runDebate, runRounds, runSpeakers, initDebateState, h0, h1, h2, h3]
  · intro topic a b snaps tx j hj hres hnone
    interval_cases j
    · refine ⟨?_, ?_, ?_⟩
      · simp [runDebate, runRounds, runSpeakers, initDebateState, hnone]
      · simp [runDebate, runRounds, runSpeakers, initDebateState, hnone]
      · simp [runDebate, runRounds, runSpeakers, initDebateState, hnone,
          List.getD]
        exact ⟨_, rfl⟩
    · have h0 := hres 0 (by omega)
      refine ⟨?_, ?_, ?_⟩
      · simp [runDebate, runRounds, runSpeakers, initDebateState, h0, hnone]
      · simp [runDebate, runRounds, runSpeakers, initDebateState, h0, hnone]
      · simp [runDebate, runRounds, runSpeakers, initDebateState, h0, hnone,
          List.getD]
        exact ⟨_, rfl⟩
    · have h0 := hres 0 (by omega)
      have h1 := hres 1 (by omega)
      refine ⟨?_, ?_, ?_⟩
      · simp [runDebate, runRounds, runSpeakers, initDebateState, h0, h1,
          hnone]
      · simp [runDebate, runRounds, runSpeakers, initDebateState, h0, h1,
          hnone]
      · simp [runDebate, runRounds, runSpeakers, initDebateState, h0, h1,
          hnone, List.getD]
        exact ⟨_, rfl⟩
    · have h0 := hres 0 (by omega)
      have h1 := hres 1 (by omega)
      have h2 := hres 2 (by omega)
      refine ⟨?_, ?_, ?_⟩
      · simp [runDebate, runRounds, runSpeakers, initDebateState, h0, h1, h2,
          hnone]
      · simp [runDebate, runRounds, runSpeakers, initDebateState, h0, h1, h2,
          hnone]
      · simp [runDebate, runRounds, runSpeakers, initDebateState, h0, h1, h2,
          hnone, List.getD]
        exact ⟨_, rfl⟩

/-- Witness for the amended C5: with every turn resolving, the four turns
are dispatched as `a, b, a, b`; with the first turn of `b` (dispatch
index 1) timing out, only `a, b` are ever dispatched — the round-2 turn
of `a` is never sent — and the run is aborted. -/
theorem facilitateDebate_turn_order_and_abort_witness :
    (runDebate "T" ["a", "b"] 2
      (fun _ => [[⟨"w", some ((createDone "arg").toJs)⟩]])).dispatched
      = ["a", "b", "a", "b"] ∧
    (runDebate "T" ["a", "b"] 2
      (fun k => if k = 1 then [[]]
        else [[⟨"w", some ((createDone "arg").toJs)⟩]])).dispatched
      = ["a", "b"] ∧
    (runDebate "T" ["a", "b"] 2
      (fun k => if k = 1 then [[]]
        else [[⟨"w", some ((createDone "arg").toJs)⟩]])).aborted = true := by
  have hpart1 := facilitateDebate_turn_order_and_abort.1 "T" "a" "b"
    (fun _ => [[⟨"w", some ((createDone "arg").toJs)⟩]])
    (fun _ => "arg") (fun k _ => rfl)
  have hpart2 := facilitateDebate_turn_order_and_abort.2 "T" "a" "b"
    (fun k => if k = 1 then [[]]
      else [[⟨"w", some ((createDone "arg").toJs)⟩]])
    (fun _ => "arg") 1 (by omega)
    (fun k hk => by interval_cases k; rfl) rfl
  exact ⟨hpart1.1, hpart2.1, hpart2.2.1⟩

end ClaimTheorems

end ExMachina
